import Mathlib

/-!
Verification development for the StockGame central-ledger subsystem.

The TypeScript source (lib/ledger.ts, lib/db.ts and the upload route) is
shallowly embedded below.  JavaScript numbers are modelled exactly as
rationals (ℚ); the spec itself sets floating-point rounding aside.
Database effects are modelled by explicit state passing over a `DB` record
that mirrors the JSON collections of the file-system backend; the wall
clock and the random id generator are passed in as explicit arguments.
Error message strings are modelled by a constructor carrying the values
that the source interpolates into the message.
-/

namespace StockGame

/-- The `entryType` field of a ledger entry: `'CASH_DEPOSIT' | 'BUY' | 'SELL'`. -/
inductive EntryType where
  | CASH_DEPOSIT
  | BUY
  | SELL
deriving DecidableEq, Repr

/-- `LedgerEntry` from lib/db.ts: immutable record of one financial event. -/
structure LedgerEntry where
  id : String
  playerId : String
  entryType : EntryType
  symbol : Option String
  quantity : ℚ
  pricePerShare : ℚ
  cashChange : ℚ
  costBasisPerShare : Option ℚ
  realizedPnL : Option ℚ
  timestamp : String
  notes : Option String
deriving DecidableEq, Repr

/-- `PositionSummary` from lib/db.ts.  The source declares
`firstPurchaseDate : string` but assigns it through the non-null assertion
`firstPurchaseDate!`, which at runtime lets a `null` through unchanged; the
field is therefore modelled as `Option String`, `none` standing for that
`null`. -/
structure PositionSummary where
  playerId : String
  symbol : String
  quantity : ℚ
  averageCostBasis : ℚ
  totalCostBasis : ℚ
  firstPurchaseDate : Option String
  lastActivityDate : String
deriving DecidableEq, Repr

/-- `PlayerSummary` from lib/db.ts. -/
structure PlayerSummary where
  playerId : String
  cashBalance : ℚ
  totalDeposited : ℚ
  totalRealizedPnL : ℚ
  lastUpdated : String
deriving DecidableEq, Repr

/-- `Player` as the upload route uses it (route.ts assigns `startingCash` and
`currentCash` on the player record; the migration-era interface in
scripts/migrate-to-ledger.ts declares them optional). -/
structure PlayerRec where
  id : String
  name : String
  passwordHash : String
  startingCash : Option ℚ
  currentCash : Option ℚ
  createdAt : String
deriving DecidableEq, Repr

/-- `Position` from lib/db.ts (pre-ledger holdings model, still written by
the upload route). -/
structure Position where
  id : String
  playerId : String
  symbol : String
  quantity : ℚ
  purchasePrice : ℚ
  purchaseDate : String
  createdAt : String
deriving DecidableEq, Repr

/-- `InitialPosition` from lib/db.ts. -/
structure InitialPosition where
  playerId : String
  symbol : String
  quantity : ℚ
  purchasePrice : ℚ
  purchaseDate : String
deriving DecidableEq, Repr

/-- The database state: one field per JSON collection of the file-system
backend of lib/db.ts that the embedded operations touch. -/
structure DB where
  players : List PlayerRec
  positions : List Position
  initialPositions : List InitialPosition
  ledger : List LedgerEntry
  positionSummaries : List PositionSummary
  playerSummaries : List PlayerSummary
deriving DecidableEq, Repr

/-- The empty database (fresh data directory). -/
def DB.empty : DB := ⟨[], [], [], [], [], []⟩

/-- Byte-wise `≤` on characters. -/
def charLeb (c d : Char) : Bool := c.val.toNat ≤ d.val.toNat

/-- Lexicographic `≤` on strings as character lists; on the ISO timestamp
alphabet this coincides with `localeCompare` ordering. -/
def strLeb : List Char → List Char → Bool
  | [], _ => true
  | _ :: _, [] => false
  | c :: cs, d :: ds => if c = d then strLeb cs ds else charLeb c d

/-- Insert an entry in front of the first list element with a `≥` timestamp. -/
def orderedInsertTs (e : LedgerEntry) : List LedgerEntry → List LedgerEntry
  | [] => [e]
  | x :: xs =>
      if strLeb e.timestamp.data x.timestamp.data then e :: x :: xs
      else x :: orderedInsertTs e xs

/-- Ascending sort by `timestamp` — embeds
`entries.sort((a, b) => a.timestamp.localeCompare(b.timestamp))`
(a stable comparator sort) as a stable insertion sort over lexicographic
string order. -/
def sortByTimestamp : List LedgerEntry → List LedgerEntry
  | [] => []
  | e :: l => orderedInsertTs e (sortByTimestamp l)

/-- `db.getPlayerLedgerEntries`: the player's entries sorted ascending by
timestamp. -/
def DB.getPlayerLedgerEntries (db : DB) (playerId : String) : List LedgerEntry :=
  sortByTimestamp (db.ledger.filter (fun e => decide (e.playerId = playerId)))

/-- `db.getLedgerEntriesForSymbol`: filter of the player's sorted entries to
one symbol. -/
def DB.getLedgerEntriesForSymbol (db : DB) (playerId symbol : String) : List LedgerEntry :=
  (db.getPlayerLedgerEntries playerId).filter (fun e => decide (e.symbol = some symbol))

/-- `db.saveLedgerEntry`: append-only push of a new entry. -/
def DB.saveLedgerEntry (db : DB) (entry : LedgerEntry) : DB :=
  { db with ledger := db.ledger ++ [entry] }

/-- `db.clearPlayerLedgerEntries`: drop every entry of one player. -/
def DB.clearPlayerLedgerEntries (db : DB) (playerId : String) : DB :=
  { db with ledger := db.ledger.filter (fun e => decide (¬ e.playerId = playerId)) }

/-- Replace the first summary with the same player+symbol key, else push —
embeds the `findIndex` / assign-or-push body of `db.savePositionSummary`. -/
def upsertPositionSummary : List PositionSummary → PositionSummary → List PositionSummary
  | [], s => [s]
  | x :: xs, s =>
      if x.playerId = s.playerId ∧ x.symbol = s.symbol then s :: xs
      else x :: upsertPositionSummary xs s

/-- `db.savePositionSummary`. -/
def DB.savePositionSummary (db : DB) (s : PositionSummary) : DB :=
  { db with positionSummaries := upsertPositionSummary db.positionSummaries s }

/-- `db.getPositionSummary`: first summary matching player+symbol, or null. -/
def DB.getPositionSummary (db : DB) (playerId symbol : String) : Option PositionSummary :=
  db.positionSummaries.find? (fun s => decide (s.playerId = playerId ∧ s.symbol = symbol))

/-- `db.deletePositionSummary`. -/
def DB.deletePositionSummary (db : DB) (playerId symbol : String) : DB :=
  { db with positionSummaries :=
      db.positionSummaries.filter (fun s => decide (¬ (s.playerId = playerId ∧ s.symbol = symbol))) }

/-- `db.clearPlayerPositionSummaries`. -/
def DB.clearPlayerPositionSummaries (db : DB) (playerId : String) : DB :=
  { db with positionSummaries :=
      db.positionSummaries.filter (fun s => decide (¬ s.playerId = playerId)) }

/-- Replace the first summary with the same playerId, else push — embeds the
body of `db.savePlayerSummary`. -/
def upsertPlayerSummary : List PlayerSummary → PlayerSummary → List PlayerSummary
  | [], s => [s]
  | x :: xs, s =>
      if x.playerId = s.playerId then s :: xs
      else x :: upsertPlayerSummary xs s

/-- `db.savePlayerSummary`. -/
def DB.savePlayerSummary (db : DB) (s : PlayerSummary) : DB :=
  { db with playerSummaries := upsertPlayerSummary db.playerSummaries s }

/-- `db.getPlayerSummary`. -/
def DB.getPlayerSummary (db : DB) (playerId : String) : Option PlayerSummary :=
  db.playerSummaries.find? (fun s => decide (s.playerId = playerId))

/-- `db.deletePlayerSummary`. -/
def DB.deletePlayerSummary (db : DB) (playerId : String) : DB :=
  { db with playerSummaries :=
      db.playerSummaries.filter (fun s => decide (¬ s.playerId = playerId)) }

/-- `name.toLowerCase()`. -/
def jsToLower (s : String) : String := String.mk (s.data.map Char.toLower)

/-- `db.getPlayerByName` (case-insensitive name match). -/
def DB.getPlayerByName (db : DB) (name : String) : Option PlayerRec :=
  db.players.find? (fun p => decide (jsToLower p.name = jsToLower name))

/-- `db.savePlayer`: replace by id, else push. -/
def upsertPlayer : List PlayerRec → PlayerRec → List PlayerRec
  | [], p => [p]
  | x :: xs, p => if x.id = p.id then p :: xs else x :: upsertPlayer xs p

/-- `db.savePlayer`. -/
def DB.savePlayer (db : DB) (p : PlayerRec) : DB :=
  { db with players := upsertPlayer db.players p }

/-- `db.getPlayerPositions`. -/
def DB.getPlayerPositions (db : DB) (playerId : String) : List Position :=
  db.positions.filter (fun p => decide (p.playerId = playerId))

/-- `db.deletePosition` (by position id). -/
def DB.deletePosition (db : DB) (positionId : String) : DB :=
  { db with positions := db.positions.filter (fun p => decide (¬ p.id = positionId)) }

/-- `db.savePosition`: replace by id, else push. -/
def upsertPosition : List Position → Position → List Position
  | [], p => [p]
  | x :: xs, p => if x.id = p.id then p :: xs else x :: upsertPosition xs p

/-- `db.savePosition`. -/
def DB.savePosition (db : DB) (p : Position) : DB :=
  { db with positions := upsertPosition db.positions p }

/-- `db.saveInitialPosition`: drop any record with the same player+symbol,
then push. -/
def DB.saveInitialPosition (db : DB) (p : InitialPosition) : DB :=
  { db with initialPositions :=
      (db.initialPositions.filter
        (fun q => decide (¬ (q.playerId = p.playerId ∧ q.symbol = p.symbol)))) ++ [p] }

/-- `db.clearPlayerInitialPositions`. -/
def DB.clearPlayerInitialPositions (db : DB) (playerId : String) : DB :=
  { db with initialPositions :=
      db.initialPositions.filter (fun p => decide (¬ p.playerId = playerId)) }

/-! ## The ledger module (lib/ledger.ts) -/

/-- `timestamp.split('T')[0]` — the date part of an ISO instant: the
characters before the first `'T'`. -/
def dateOf (ts : String) : String :=
  String.mk (ts.data.takeWhile (fun c => c ≠ 'T'))

/-- The running state of the replay loop in `recalculatePositionSummary`. -/
structure ReplayAcc where
  totalShares : ℚ
  totalCost : ℚ
  firstPurchaseDate : Option String
  lastActivityDate : String
deriving DecidableEq, Repr

/-- Initial replay state: `totalShares = 0`, `totalCost = 0`,
`firstPurchaseDate = null`, `lastActivityDate = ''`. -/
def replayInit : ReplayAcc := ⟨0, 0, none, ""⟩

/-- One iteration of the replay loop of `recalculatePositionSummary`.
The guard `if (!firstPurchaseDate)` tests JavaScript falsiness, which holds
for `null` and for the empty string; both are reflected below. -/
def replayStep (acc : ReplayAcc) (e : LedgerEntry) : ReplayAcc :=
  let acc1 :=
    match e.entryType with
    | .BUY =>
        { acc with
          totalCost := acc.totalCost + e.quantity * e.pricePerShare
          totalShares := acc.totalShares + e.quantity
          firstPurchaseDate :=
            if acc.firstPurchaseDate.getD "" = "" then some (dateOf e.timestamp)
            else acc.firstPurchaseDate }
    | .SELL =>
        let sharesSold := |e.quantity|
        let avgCost := if acc.totalShares > 0 then acc.totalCost / acc.totalShares else 0
        { acc with
          totalCost := acc.totalCost - avgCost * sharesSold
          totalShares := acc.totalShares - sharesSold }
    | .CASH_DEPOSIT => acc
  { acc1 with lastActivityDate := dateOf e.timestamp }

/-- The pure part of `recalculatePositionSummary`: the replay of one
player+symbol's entries.  `none` is returned exactly when the source
deletes the summary and returns `null` (no entries, or `totalShares ≤ 0`
after replay). -/
def positionSummaryOfEntries (playerId symbol : String)
    (entries : List LedgerEntry) : Option PositionSummary :=
  if entries.length = 0 then none
  else
    let acc := entries.foldl replayStep replayInit
    if acc.totalShares ≤ 0 then none
    else
      some
        { playerId := playerId
          symbol := symbol
          quantity := acc.totalShares
          averageCostBasis := acc.totalCost / acc.totalShares
          totalCostBasis := acc.totalCost
          firstPurchaseDate := acc.firstPurchaseDate
          lastActivityDate := acc.lastActivityDate }

/-- `recalculatePositionSummary` from lib/ledger.ts: replay one
player+symbol's entries, then delete or persist the derived summary. -/
def recalculatePositionSummary (db : DB) (playerId symbol : String) :
    Option PositionSummary × DB :=
  let entries := db.getLedgerEntriesForSymbol playerId symbol
  match positionSummaryOfEntries playerId symbol entries with
  | none => (none, db.deletePositionSummary playerId symbol)
  | some summary => (some summary, db.savePositionSummary summary)

/-- One iteration of the accumulation loop of `recalculatePlayerSummary`;
the state is `(cashBalance, totalDeposited, totalRealizedPnL)`. -/
def playerStep (a : ℚ × ℚ × ℚ) (e : LedgerEntry) : ℚ × ℚ × ℚ :=
  let cash := a.1 + e.cashChange
  let dep := a.2.1
    + (if e.entryType = .CASH_DEPOSIT then e.cashChange else 0)
    + (if e.entryType = .BUY ∧ e.cashChange = 0 then e.quantity * e.pricePerShare else 0)
  let pnl := a.2.2 + (match e.realizedPnL with | some v => v | none => 0)
  (cash, dep, pnl)

/-- `recalculatePlayerSummary` from lib/ledger.ts.  The wall-clock reading
`new Date().toISOString()` stored into `lastUpdated` is the explicit
argument `now`. -/
def recalculatePlayerSummary (now : String) (db : DB) (playerId : String) :
    PlayerSummary × DB :=
  let entries := db.getPlayerLedgerEntries playerId
  let a := entries.foldl playerStep (0, 0, 0)
  let summary : PlayerSummary :=
    { playerId := playerId
      cashBalance := a.1
      totalDeposited := a.2.1
      totalRealizedPnL := a.2.2
      lastUpdated := now }
  (summary, db.savePlayerSummary summary)

/-- The kind of rejection produced by `validateTrade`, carrying the values
that the source interpolates into the message string. -/
inductive TradeError where
  | quantityNotPositiveInt
  | priceNotPositive
  | insufficientCash (available required : ℚ)
  | insufficientShares (owned : ℚ) (symbol : String)
deriving DecidableEq, Repr

/-- `type` argument of `validateTrade` / `executeTrade`. -/
inductive TradeType where
  | BUY
  | SELL
deriving DecidableEq, Repr

/-- `TradeValidation` from lib/ledger.ts.  The summary fields are optional
in the source (`playerSummary?: PlayerSummary | null`): the outer `Option`
is field presence, the inner one is nullability. -/
structure TradeValidation where
  valid : Bool
  error : Option TradeError := none
  playerSummary : Option (Option PlayerSummary) := none
  positionSummary : Option (Option PositionSummary) := none
deriving DecidableEq, Repr

/-- `validateTrade` from lib/ledger.ts. -/
def validateTrade (db : DB) (playerId symbol : String) (type : TradeType)
    (quantity price : ℚ) : TradeValidation :=
  if quantity ≤ 0 ∨ ¬ quantity.isInt then
    { valid := false, error := some .quantityNotPositiveInt }
  else if price ≤ 0 then
    { valid := false, error := some .priceNotPositive }
  else
    let playerSummary := db.getPlayerSummary playerId
    let positionSummary := db.getPositionSummary playerId symbol
    match type with
    | .BUY =>
        let totalCost := quantity * price
        let cashBalance := (playerSummary.map (fun s => s.cashBalance)).getD 0
        if totalCost > cashBalance then
          { valid := false
            error := some (.insufficientCash cashBalance totalCost)
            playerSummary := some playerSummary
            positionSummary := some positionSummary }
        else
          { valid := true
            playerSummary := some playerSummary
            positionSummary := some positionSummary }
    | .SELL =>
        let currentQuantity := (positionSummary.map (fun s => s.quantity)).getD 0
        if currentQuantity < quantity then
          { valid := false
            error := some (.insufficientShares currentQuantity symbol)
            playerSummary := some playerSummary
            positionSummary := some positionSummary }
        else
          { valid := true
            playerSummary := some playerSummary
            positionSummary := some positionSummary }

/-- `TradeResult` from lib/ledger.ts (same optional/nullable convention as
`TradeValidation`). -/
structure TradeResult where
  success : Bool
  error : Option TradeError := none
  ledgerEntry : Option LedgerEntry := none
  playerSummary : Option PlayerSummary := none
  positionSummary : Option (Option PositionSummary) := none
deriving DecidableEq, Repr

/-- `executeTrade` from lib/ledger.ts.  `now` is the wall-clock reading used
for the entry timestamp and the summary recomputation; `id` is the value of
`generateId()`. -/
def executeTrade (now id : String) (db : DB) (playerId symbol : String)
    (type : TradeType) (quantity price : ℚ) : TradeResult × DB :=
  let validation := validateTrade db playerId symbol type quantity price
  if validation.valid = false then
    ({ success := false, error := validation.error }, db)
  else
    let totalAmount := quantity * price
    let cbpAndPnl : Option ℚ × Option ℚ :=
      match type, validation.positionSummary with
      | .SELL, some (some ps) =>
          (some ps.averageCostBasis, some ((price - ps.averageCostBasis) * quantity))
      | _, _ => (none, none)
    let entry : LedgerEntry :=
      { id := id
        playerId := playerId
        entryType := (match type with | .BUY => .BUY | .SELL => .SELL)
        symbol := some symbol
        quantity := (match type with | .BUY => quantity | .SELL => -quantity)
        pricePerShare := price
        cashChange := (match type with | .BUY => -totalAmount | .SELL => totalAmount)
        costBasisPerShare := cbpAndPnl.1
        realizedPnL := cbpAndPnl.2
        timestamp := now
        notes := none }
    let db1 := db.saveLedgerEntry entry
    let posAndDb := recalculatePositionSummary db1 playerId symbol
    let playerAndDb := recalculatePlayerSummary now posAndDb.2 playerId
    ({ success := true
       error := none
       ledgerEntry := some entry
       playerSummary := some playerAndDb.1
       positionSummary := some posAndDb.1 }, playerAndDb.2)

/-- `notes || null` / `notes || 'default'`: JavaScript `||` treats the empty
string as falsy. -/
def jsNotesOr (notes : Option String) (dflt : Option String) : Option String :=
  match notes with
  | some s => if s = "" then dflt else some s
  | none => dflt

/-- `createCashDeposit` from lib/ledger.ts. -/
def createCashDeposit (now id : String) (db : DB) (playerId : String)
    (amount : ℚ) (notes : Option String) : LedgerEntry × DB :=
  let entry : LedgerEntry :=
    { id := id
      playerId := playerId
      entryType := .CASH_DEPOSIT
      symbol := none
      quantity := 0
      pricePerShare := 0
      cashChange := amount
      costBasisPerShare := none
      realizedPnL := none
      timestamp := now
      notes := jsNotesOr notes none }
  let db1 := db.saveLedgerEntry entry
  let playerAndDb := recalculatePlayerSummary now db1 playerId
  (entry, playerAndDb.2)

/-- `new Date(d).toISOString()` for a `YYYY-MM-DD` date string, which is
what the CSV ingestion path supplies. -/
def isoOfDate (d : String) : String := d ++ "T00:00:00.000Z"

/-- `createInitialPosition` from lib/ledger.ts: a BUY entry with
`cashChange = 0` timestamped with the supplied purchase date. -/
def createInitialPosition (id : String) (db : DB) (playerId symbol : String)
    (quantity purchasePrice : ℚ) (purchaseDate : String) (notes : Option String) :
    LedgerEntry × DB :=
  let entry : LedgerEntry :=
    { id := id
      playerId := playerId
      entryType := .BUY
      symbol := some symbol
      quantity := quantity
      pricePerShare := purchasePrice
      cashChange := 0
      costBasisPerShare := none
      realizedPnL := none
      timestamp := isoOfDate purchaseDate
      notes := jsNotesOr notes (some "Initial import from CSV") }
  let db1 := db.saveLedgerEntry entry
  let posAndDb := recalculatePositionSummary db1 playerId symbol
  (entry, posAndDb.2)

/-- `clearPlayerLedgerData` from lib/ledger.ts: full per-player reset of
ledger, position summaries and player summary. -/
def clearPlayerLedgerData (db : DB) (playerId : String) : DB :=
  ((db.clearPlayerLedgerEntries playerId).clearPlayerPositionSummaries
      playerId).deletePlayerSummary playerId

/-! ## The CSV upload route (app/api/upload/route.ts)

The route consumes parsed CSV rows.  `parseInt` / `parseFloat` results are
modelled as rationals, trimming and upper-casing as already applied. -/

/-- One parsed CSV row `{Player, Symbol, Quantity, PurchasePrice, Date}`. -/
structure ParsedRow where
  player : String
  symbol : String
  quantity : ℚ
  purchasePrice : ℚ
  date : String
deriving DecidableEq, Repr

/-- The per-player accumulator of the row-processing loop
(`{positions, totalCost, cash}`). -/
structure GroupData where
  positionsList : List Position
  totalCost : ℚ
  cash : ℚ
deriving DecidableEq, Repr

/-- Apply `f` to the group of `key`, inserting the empty group first when
the key is new — embeds the `playersMap.has`/`set`/`get` sequence over an
insertion-ordered map. -/
def updateGroup (key : String) (f : GroupData → GroupData) :
    List (String × GroupData) → List (String × GroupData)
  | [] => [(key, f ⟨[], 0, 0⟩)]
  | (k, g) :: rest =>
      if k = key then (k, f g) :: rest
      else (k, g) :: updateGroup key f rest

/-- One iteration of the row-processing loop (route.ts lines 43-100) over
the state `(index, playersMap)`.  Rows failing the validation checks are
skipped; a `$CASH` row sets the group's cash and adds to `totalCost`
without creating a position; other rows append a `Position` (its random
id is modelled from the row index) and add their cost.  `now` stands for
`new Date().toISOString()`. -/
def processRow (now : String) (st : Nat × List (String × GroupData))
    (row : ParsedRow) : Nat × List (String × GroupData) :=
  let i := st.1
  let m := st.2
  if row.player = "" ∨ row.symbol = "" ∨ row.quantity ≤ 0 ∨ row.purchasePrice ≤ 0 then
    (i + 1, m)
  else
    let date := if row.date = "" then "2024-12-07" else row.date
    if row.symbol = "$CASH" then
      let cashAmount := row.quantity * row.purchasePrice
      (i + 1, updateGroup row.player
        (fun g => { g with cash := cashAmount, totalCost := g.totalCost + cashAmount }) m)
    else
      let cost := row.quantity * row.purchasePrice
      let position : Position :=
        { id := "row-" ++ toString i ++ "-" ++ row.symbol
          playerId := ""
          symbol := row.symbol
          quantity := row.quantity
          purchasePrice := row.purchasePrice
          purchaseDate := date
          createdAt := now }
      (i + 1, updateGroup row.player
        (fun g => { g with positionsList := g.positionsList ++ [position],
                           totalCost := g.totalCost + cost }) m)

/-- The whole row-processing loop: fold `processRow` over the rows. -/
def processRows (now : String) (rows : List ParsedRow) : List (String × GroupData) :=
  (rows.foldl (processRow now) (0, [])).2

/-- The per-player import step of the upload route (route.ts lines
123-198): create or update the player record (with `startingCash` and
`currentCash`), delete the player's existing positions, clear the player's
initial positions, then save each new position together with a matching
initial position.  `newPlayerId` stands for the generated id and
`defaultHash` for `await hashPassword('changeme')`. -/
def uploadImportPlayer (now newPlayerId defaultHash : String)
    (playerName : String) (g : GroupData) (db : DB) : DB :=
  let found := db.getPlayerByName playerName
  let initialTotalValue := g.totalCost
  let currentCash := g.cash
  let player : PlayerRec :=
    match found with
    | none =>
        { id := newPlayerId
          name := playerName
          passwordHash := defaultHash
          startingCash := some initialTotalValue
          currentCash := some currentCash
          createdAt := now }
    | some p =>
        { p with startingCash := some initialTotalValue, currentCash := some currentCash }
  let db1 := db.savePlayer player
  let existing := db1.getPlayerPositions player.id
  let db2 := existing.foldl (fun d pos => d.deletePosition pos.id) db1
  let db3 := db2.clearPlayerInitialPositions player.id
  g.positionsList.foldl
    (fun d pos =>
      let pos1 := { pos with playerId := player.id }
      let d1 := d.savePosition pos1
      d1.saveInitialPosition
        ⟨player.id, pos.symbol, pos.quantity, pos.purchasePrice, pos.purchaseDate⟩)
    db3

/-- The database effect of the upload route's `POST` handler: process the
rows, then run the per-player import for each group in insertion order.
`mkPlayerId i` stands for the id generated for the `i`-th newly seen
player. -/
def uploadPOST (now defaultHash : String) (mkPlayerId : Nat → String)
    (rows : List ParsedRow) (db : DB) : DB :=
  let groups := processRows now rows
  (groups.foldl
    (fun st kg => (st.1 + 1, uploadImportPlayer now (mkPlayerId st.1) defaultHash kg.1 kg.2 st.2))
    (0, db)).2

/-! ## Claim-side definitions

The following definitions restate, in the spec's own words, the quantities
that the claims describe; the theorems below compare them with the
source-derived functions above. -/

/-- Spec-side replay step on `(totalShares, totalCost)`: BUY adds
`quantity` shares and `quantity × price` cost; SELL removes
`sharesSold = |quantity|` shares and `avgCost × sharesSold` cost where
`avgCost = totalCost / totalShares` if `totalShares > 0`, else `0`. -/
def specStep (a : ℚ × ℚ) (e : LedgerEntry) : ℚ × ℚ :=
  match e.entryType with
  | .BUY => (a.1 + e.quantity, a.2 + e.quantity * e.pricePerShare)
  | .SELL =>
      let sharesSold := |e.quantity|
      let avgCost := if a.1 > 0 then a.2 / a.1 else 0
      (a.1 - sharesSold, a.2 - avgCost * sharesSold)
  | .CASH_DEPOSIT => a

/-- Spec-side replay of a list of entries from `(0, 0)`. -/
def specReplay (l : List LedgerEntry) : ℚ × ℚ := l.foldl specStep (0, 0)

/-- Spec-side sum of `cashChange` over a list of entries. -/
def sumCashChange : List LedgerEntry → ℚ
  | [] => 0
  | e :: l => e.cashChange + sumCashChange l

/-- Spec-side `totalDeposited`: `cashChange` of CASH_DEPOSIT entries plus
`quantity × pricePerShare` of BUY entries whose `cashChange` is zero. -/
def sumDeposited : List LedgerEntry → ℚ
  | [] => 0
  | e :: l =>
      (if e.entryType = .CASH_DEPOSIT then e.cashChange else 0)
        + (if e.entryType = .BUY ∧ e.cashChange = 0 then e.quantity * e.pricePerShare else 0)
        + sumDeposited l

/-- Spec-side sum of the non-null `realizedPnL` values. -/
def sumRealized : List LedgerEntry → ℚ
  | [] => 0
  | e :: l => (match e.realizedPnL with | some v => v | none => 0) + sumRealized l

/-- A replay state whose `firstPurchaseDate` is still unset has processed
no BUY, hence holds no shares. -/
def okAcc (a : ReplayAcc) : Prop := a.firstPurchaseDate = none → a.totalShares ≤ 0

/-- Every position summary stored in the database has positive quantity. -/
def posInv (db : DB) : Prop := ∀ ps ∈ db.positionSummaries, 0 < ps.quantity

/-- Claim-side wording: the player's cash balance, `0` when the player
summary is absent. -/
def cashBalanceOf (db : DB) (p : String) : ℚ :=
  ((db.getPlayerSummary p).map (fun x => x.cashBalance)).getD 0

/-- Claim-side wording: the held quantity for a symbol, `0` when the
position summary is absent. -/
def heldQuantityOf (db : DB) (p s : String) : ℚ :=
  ((db.getPositionSummary p s).map (fun x => x.quantity)).getD 0

/-! ## Concrete scenario data -/

/-- Cost-basis worked example: deposit cash, buy 10 @ 100. -/
def c1Db0 : DB :=
  (createCashDeposit "2024-01-01T00:00:00.000Z" "c1-0" DB.empty "p" 10000 none).2

/-- First BUY of the worked example: 10 shares @ 100. -/
def c1Buy1 : TradeResult × DB :=
  executeTrade "2024-01-02T00:00:00.000Z" "c1-1" c1Db0 "p" "STK" .BUY 10 100

/-- Second BUY of the worked example: 10 shares @ 120. -/
def c1Buy2 : TradeResult × DB :=
  executeTrade "2024-01-03T00:00:00.000Z" "c1-2" c1Buy1.2 "p" "STK" .BUY 10 120

/-- SELL of the worked example: 5 shares @ 150. -/
def c1Sell : TradeResult × DB :=
  executeTrade "2024-01-04T00:00:00.000Z" "c1-3" c1Buy2.2 "p" "STK" .SELL 5 150

/-- Parsed rows of a small CSV import: a `$CASH` row (1 × 500) and one
stock row for the same player. -/
def c2Rows : List ParsedRow :=
  [⟨"Alice", "$CASH", 1, 500, "2024-12-07"⟩,
   ⟨"Alice", "AAPL", 10, 100, "2024-12-07"⟩]

/-- The database after the upload route imports `c2Rows` into an empty
database. -/
def c2Db : DB :=
  uploadPOST "2024-12-08T00:00:00.000Z" "hash" (fun _ => "pid0") c2Rows DB.empty

/-- `totalDeposited` example data: a CASH_DEPOSIT of 1000 followed by a
zero-`cashChange` BUY of 5 shares @ 50. -/
def c7Db : DB :=
  (createInitialPosition "c7-1"
    ((createCashDeposit "2024-01-01T00:00:00.000Z" "c7-0" DB.empty "q" 1000 none).2)
    "q" "XYZ" 5 50 "2024-12-07" none).2

/-- A database holding one player summary (cash 5000) and one position
summary (20 shares of S at average cost 110). -/
def dbW : DB :=
  { DB.empty with
      positionSummaries := [⟨"p", "S", 20, 110, 2200, some "2024-01-01", "2024-01-02"⟩]
      playerSummaries := [⟨"p", 5000, 5000, 0, "2024-01-02T00:00:00.000Z"⟩] }

/-- A database whose ledger holds a single BUY of 10 shares of S @ 100. -/
def dbC10 : DB :=
  { DB.empty with
      ledger := [⟨"i1", "p", .BUY, some "S", 10, 100, -1000, none, none,
                  "2024-01-05T10:00:00.000Z", none⟩] }

/-! ## Helper lemmas -/

theorem ledger_deletePositionSummary (db : DB) (p s : String) :
    (db.deletePositionSummary p s).ledger = db.ledger := rfl

theorem ledger_savePositionSummary (db : DB) (ps : PositionSummary) :
    (db.savePositionSummary ps).ledger = db.ledger := rfl

theorem ledger_savePlayerSummary (db : DB) (ps : PlayerSummary) :
    (db.savePlayerSummary ps).ledger = db.ledger := rfl

theorem recalculatePositionSummary_ledger (db : DB) (p s : String) :
    ((recalculatePositionSummary db p s).2).ledger = db.ledger := by
  cases h : positionSummaryOfEntries p s (db.getLedgerEntriesForSymbol p s) <;>
    simp [recalculatePositionSummary, h, DB.deletePositionSummary, DB.savePositionSummary]

theorem recalculatePlayerSummary_ledger (now : String) (db : DB) (p : String) :
    ((recalculatePlayerSummary now db p).2).ledger = db.ledger := rfl

theorem getPlayerLedgerEntries_congr {db1 db2 : DB} (p : String)
    (h : db1.ledger = db2.ledger) :
    db1.getPlayerLedgerEntries p = db2.getPlayerLedgerEntries p := by
  unfold DB.getPlayerLedgerEntries
  rw [h]

theorem getLedgerEntriesForSymbol_congr {db1 db2 : DB} (p s : String)
    (h : db1.ledger = db2.ledger) :
    db1.getLedgerEntriesForSymbol p s = db2.getLedgerEntriesForSymbol p s := by
  unfold DB.getLedgerEntriesForSymbol
  rw [getPlayerLedgerEntries_congr p h]

theorem recalculatePositionSummary_fst (db : DB) (p s : String) :
    (recalculatePositionSummary db p s).1 =
      positionSummaryOfEntries p s (db.getLedgerEntriesForSymbol p s) := by
  cases h : positionSummaryOfEntries p s (db.getLedgerEntriesForSymbol p s) <;>
    simp [recalculatePositionSummary, h]

theorem recalculatePositionSummary_fst_congr {db1 db2 : DB} (p s : String)
    (h : db1.ledger = db2.ledger) :
    (recalculatePositionSummary db1 p s).1 = (recalculatePositionSummary db2 p s).1 := by
  rw [recalculatePositionSummary_fst, recalculatePositionSummary_fst,
    getLedgerEntriesForSymbol_congr p s h]

/-- The `recalculatePlayerSummary` loop, characterised by the spec-side
sums. -/
theorem playerFold_eq (l : List LedgerEntry) (a : ℚ × ℚ × ℚ) :
    l.foldl playerStep a =
      (a.1 + sumCashChange l, a.2.1 + sumDeposited l, a.2.2 + sumRealized l) := by
  induction l generalizing a with
  | nil => simp [sumCashChange, sumDeposited, sumRealized]
  | cons e l ih =>
      simp only [List.foldl_cons, ih, playerStep, sumCashChange, sumDeposited, sumRealized]
      refine Prod.ext ?_ (Prod.ext ?_ ?_) <;> dsimp only <;> ring

/-- `recalculatePlayerSummary`, characterised by the spec-side sums over
the player's entries. -/
theorem recalculatePlayerSummary_eq (now : String) (db : DB) (p : String) :
    recalculatePlayerSummary now db p =
      ({ playerId := p
         cashBalance := sumCashChange (db.getPlayerLedgerEntries p)
         totalDeposited := sumDeposited (db.getPlayerLedgerEntries p)
         totalRealizedPnL := sumRealized (db.getPlayerLedgerEntries p)
         lastUpdated := now },
       db.savePlayerSummary
         { playerId := p
           cashBalance := sumCashChange (db.getPlayerLedgerEntries p)
           totalDeposited := sumDeposited (db.getPlayerLedgerEntries p)
           totalRealizedPnL := sumRealized (db.getPlayerLedgerEntries p)
           lastUpdated := now }) := by
  simp only [recalculatePlayerSummary, playerFold_eq]
  norm_num

/-- The replay loop projected to `(totalShares, totalCost)` agrees with the
spec-side replay step. -/
theorem replayFold_totals (l : List LedgerEntry) (a : ReplayAcc) :
    ((l.foldl replayStep a).totalShares, (l.foldl replayStep a).totalCost) =
      l.foldl specStep (a.totalShares, a.totalCost) := by
  induction l generalizing a with
  | nil => rfl
  | cons e l ih =>
      simp only [List.foldl_cons]
      rw [ih]
      have h : ((replayStep a e).totalShares, (replayStep a e).totalCost) =
          specStep (a.totalShares, a.totalCost) e := by
        cases he : e.entryType <;> simp [replayStep, specStep, he]
      rw [h]

/-- Totals of the standard replay, as the spec-side replay. -/
theorem replay_totals (l : List LedgerEntry) :
    ((l.foldl replayStep replayInit).totalShares,
      (l.foldl replayStep replayInit).totalCost) = specReplay l :=
  replayFold_totals l replayInit

theorem okAcc_step {a : ReplayAcc} (e : LedgerEntry) (h : okAcc a) :
    okAcc (replayStep a e) := by
  cases he : e.entryType with
  | BUY =>
      intro hnone
      exfalso
      simp only [replayStep, he] at hnone
      by_cases hc : a.firstPurchaseDate.getD "" = ""
      · simp [hc] at hnone
      · have : a.firstPurchaseDate ≠ none := by
          intro hn
          exact hc (by simp [hn])
        simp [hc] at hnone
        exact this hnone
  | SELL =>
      intro hnone
      simp only [replayStep, he] at hnone ⊢
      have h0 : a.totalShares ≤ 0 := h hnone
      have habs : (0 : ℚ) ≤ |e.quantity| := abs_nonneg _
      linarith
  | CASH_DEPOSIT =>
      intro hnone
      simp only [replayStep, he] at hnone ⊢
      exact h hnone

theorem okAcc_fold (l : List LedgerEntry) {a : ReplayAcc} (h : okAcc a) :
    okAcc (l.foldl replayStep a) := by
  induction l generalizing a with
  | nil => exact h
  | cons e l ih => exact ih (okAcc_step e h)

/-- The pure replay, characterised by the spec-side recurrence: absent
exactly when there are no entries or the replayed share count is `≤ 0`,
and otherwise carrying the spec-side totals. -/
theorem positionSummaryOfEntries_eq (p s : String) (entries : List LedgerEntry) :
    positionSummaryOfEntries p s entries =
      (if entries.length = 0 ∨ (specReplay entries).1 ≤ 0 then none
       else
        some
          { playerId := p
            symbol := s
            quantity := (specReplay entries).1
            averageCostBasis := (specReplay entries).2 / (specReplay entries).1
            totalCostBasis := (specReplay entries).2
            firstPurchaseDate := (entries.foldl replayStep replayInit).firstPurchaseDate
            lastActivityDate := (entries.foldl replayStep replayInit).lastActivityDate }) := by
  have ht := replay_totals entries
  have h1 : (specReplay entries).1 = (entries.foldl replayStep replayInit).totalShares := by
    rw [← ht]
  have h2 : (specReplay entries).2 = (entries.foldl replayStep replayInit).totalCost := by
    rw [← ht]
  by_cases hlen : entries.length = 0
  · have hnil : entries = [] := List.length_eq_zero.mp hlen
    subst hnil
    simp [positionSummaryOfEntries, specReplay]
  · by_cases hsh : (entries.foldl replayStep replayInit).totalShares ≤ 0
    · simp [positionSummaryOfEntries, hlen, hsh, h1]
    · have hcond : ¬ (entries.length = 0 ∨ (specReplay entries).1 ≤ 0) := by
        push_neg
        exact ⟨hlen, by rw [h1]; exact lt_of_not_le hsh⟩
      simp [positionSummaryOfEntries, hlen, hsh, hcond, h1, h2]

/-- A summary produced by the pure replay always has positive quantity. -/
theorem positionSummaryOfEntries_pos {p s : String} {entries : List LedgerEntry}
    {ps : PositionSummary} (h : positionSummaryOfEntries p s entries = some ps) :
    0 < ps.quantity := by
  rw [positionSummaryOfEntries_eq] at h
  by_cases hc : entries.length = 0 ∨ (specReplay entries).1 ≤ 0
  · rw [if_pos hc] at h
    exact absurd h (by simp)
  · rw [if_neg hc] at h
    push_neg at hc
    have hps := (Option.some.injEq _ _).mp h
    rw [← hps]
    exact hc.2

/-- Membership after the replace-or-push upsert of position summaries. -/
theorem mem_upsertPositionSummary {x ps : PositionSummary} :
    ∀ {l : List PositionSummary}, x ∈ upsertPositionSummary l ps → x ∈ l ∨ x = ps := by
  intro l
  induction l with
  | nil =>
      intro hx
      simp [upsertPositionSummary] at hx
      exact Or.inr hx
  | cons y l ih =>
      intro hx
      by_cases hk : y.playerId = ps.playerId ∧ y.symbol = ps.symbol
      · simp only [upsertPositionSummary, if_pos hk] at hx
        rcases List.mem_cons.mp hx with h1 | h2
        · exact Or.inr h1
        · exact Or.inl (List.mem_cons_of_mem _ h2)
      · simp only [upsertPositionSummary, if_neg hk] at hx
        rcases List.mem_cons.mp hx with h1 | h2
        · exact Or.inl (h1 ▸ List.mem_cons_self _ _)
        · rcases ih h2 with h3 | h4
          · exact Or.inl (List.mem_cons_of_mem _ h3)
          · exact Or.inr h4

theorem posInv_deletePositionSummary {db : DB} (p s : String) (h : posInv db) :
    posInv (db.deletePositionSummary p s) := by
  intro ps hps
  exact h ps (List.mem_of_mem_filter hps)

theorem posInv_savePositionSummary {db : DB} {ps0 : PositionSummary}
    (h : posInv db) (hpos : 0 < ps0.quantity) :
    posInv (db.savePositionSummary ps0) := by
  intro ps hps
  rcases mem_upsertPositionSummary hps with h1 | h2
  · exact h ps h1
  · rw [h2]; exact hpos

theorem posInv_recalculatePositionSummary {db : DB} (p s : String) (h : posInv db) :
    posInv (recalculatePositionSummary db p s).2 := by
  unfold recalculatePositionSummary
  cases hr : positionSummaryOfEntries p s (db.getLedgerEntriesForSymbol p s) with
  | none =>
      simp only [hr]
      exact posInv_deletePositionSummary p s h
  | some summary =>
      simp only [hr]
      exact posInv_savePositionSummary h (positionSummaryOfEntries_pos hr)

theorem posInv_saveLedgerEntry {db : DB} (e : LedgerEntry) (h : posInv db) :
    posInv (db.saveLedgerEntry e) := h

theorem posInv_savePlayerSummary {db : DB} (ps : PlayerSummary) (h : posInv db) :
    posInv (db.savePlayerSummary ps) := h

theorem validateTrade_case1 {q : ℚ} (db : DB) (p s : String) (t : TradeType) (pr : ℚ)
    (h : q ≤ 0 ∨ ¬ q.isInt) :
    validateTrade db p s t q pr =
      { valid := false, error := some .quantityNotPositiveInt } := by
  unfold validateTrade
  rw [if_pos h]

theorem validateTrade_case2 {q pr : ℚ} (db : DB) (p s : String) (t : TradeType)
    (h1 : ¬ (q ≤ 0 ∨ ¬ q.isInt)) (h2 : pr ≤ 0) :
    validateTrade db p s t q pr =
      { valid := false, error := some .priceNotPositive } := by
  unfold validateTrade
  rw [if_neg h1, if_pos h2]

theorem validateTrade_buyLow {q pr : ℚ} (db : DB) (p s : String)
    (h1 : ¬ (q ≤ 0 ∨ ¬ q.isInt)) (h2 : ¬ pr ≤ 0)
    (h3 : q * pr > cashBalanceOf db p) :
    validateTrade db p s .BUY q pr =
      { valid := false
        error := some (.insufficientCash (cashBalanceOf db p) (q * pr))
        playerSummary := some (db.getPlayerSummary p)
        positionSummary := some (db.getPositionSummary p s) } := by
  unfold validateTrade
  unfold cashBalanceOf at h3 ⊢
  rw [if_neg h1, if_neg h2]
  dsimp only
  rw [if_pos h3]

theorem validateTrade_buyOk {q pr : ℚ} (db : DB) (p s : String)
    (h1 : ¬ (q ≤ 0 ∨ ¬ q.isInt)) (h2 : ¬ pr ≤ 0)
    (h3 : ¬ q * pr > cashBalanceOf db p) :
    validateTrade db p s .BUY q pr =
      { valid := true
        playerSummary := some (db.getPlayerSummary p)
        positionSummary := some (db.getPositionSummary p s) } := by
  unfold validateTrade
  unfold cashBalanceOf at h3
  rw [if_neg h1, if_neg h2]
  dsimp only
  rw [if_neg h3]

theorem validateTrade_sellLow {q pr : ℚ} (db : DB) (p s : String)
    (h1 : ¬ (q ≤ 0 ∨ ¬ q.isInt)) (h2 : ¬ pr ≤ 0)
    (h3 : heldQuantityOf db p s < q) :
    validateTrade db p s .SELL q pr =
      { valid := false
        error := some (.insufficientShares (heldQuantityOf db p s) s)
        playerSummary := some (db.getPlayerSummary p)
        positionSummary := some (db.getPositionSummary p s) } := by
  unfold validateTrade
  unfold heldQuantityOf at h3 ⊢
  rw [if_neg h1, if_neg h2]
  dsimp only
  rw [if_pos h3]

theorem validateTrade_sellOk {q pr : ℚ} (db : DB) (p s : String)
    (h1 : ¬ (q ≤ 0 ∨ ¬ q.isInt)) (h2 : ¬ pr ≤ 0)
    (h3 : ¬ heldQuantityOf db p s < q) :
    validateTrade db p s .SELL q pr =
      { valid := true
        playerSummary := some (db.getPlayerSummary p)
        positionSummary := some (db.getPositionSummary p s) } := by
  unfold validateTrade
  unfold heldQuantityOf at h3
  rw [if_neg h1, if_neg h2]
  dsimp only
  rw [if_neg h3]

/-- A validation that passes has read the stored summaries and returns
them unchanged. -/
theorem validateTrade_valid_summaries {db : DB} {p s : String} {t : TradeType}
    {q pr : ℚ} (h : (validateTrade db p s t q pr).valid = true) :
    (validateTrade db p s t q pr).playerSummary = some (db.getPlayerSummary p) ∧
      (validateTrade db p s t q pr).positionSummary = some (db.getPositionSummary p s) := by
  by_cases h1 : q ≤ 0 ∨ ¬ q.isInt
  · rw [validateTrade_case1 db p s t pr h1] at h
    exact absurd h (by simp)
  · by_cases h2 : pr ≤ 0
    · rw [validateTrade_case2 db p s t h1 h2] at h
      exact absurd h (by simp)
    · cases t with
      | BUY =>
          by_cases h3 : q * pr > cashBalanceOf db p
          · rw [validateTrade_buyLow db p s h1 h2 h3] at h
            exact absurd h (by simp)
          · rw [validateTrade_buyOk db p s h1 h2 h3]
            exact ⟨rfl, rfl⟩
      | SELL =>
          by_cases h3 : heldQuantityOf db p s < q
          · rw [validateTrade_sellLow db p s h1 h2 h3] at h
            exact absurd h (by simp)
          · rw [validateTrade_sellOk db p s h1 h2 h3]
            exact ⟨rfl, rfl⟩

/-- A SELL that validates can only do so against a present position
summary. -/
theorem validateTrade_sell_isSome {db : DB} {p s : String} {q pr : ℚ}
    (h : (validateTrade db p s .SELL q pr).valid = true) :
    (db.getPositionSummary p s).isSome := by
  by_cases h1 : q ≤ 0 ∨ ¬ q.isInt
  · rw [validateTrade_case1 db p s .SELL pr h1] at h
    exact absurd h (by simp)
  · by_cases h2 : pr ≤ 0
    · rw [validateTrade_case2 db p s .SELL h1 h2] at h
      exact absurd h (by simp)
    · by_cases h3 : heldQuantityOf db p s < q
      · rw [validateTrade_sellLow db p s h1 h2 h3] at h
        exact absurd h (by simp)
      · push_neg at h1 h3
        have hq : 0 < q := h1.1
        cases hps : db.getPositionSummary p s with
        | none =>
            exfalso
            rw [heldQuantityOf, hps] at h3
            simp at h3
            linarith
        | some ps => rfl

/-- A trade that fails validation returns the failure and leaves the
database untouched. -/
theorem executeTrade_invalid (now id : String) {db : DB} {p s : String}
    {t : TradeType} {q pr : ℚ}
    (h : (validateTrade db p s t q pr).valid = false) :
    executeTrade now id db p s t q pr =
      ({ success := false, error := (validateTrade db p s t q pr).error }, db) := by
  unfold executeTrade
  simp only [h, if_pos]

/-- `executeTrade` preserves positivity of every stored position summary. -/
theorem executeTrade_posInv (now id : String) {db : DB} (p s : String)
    (t : TradeType) (q pr : ℚ) (h : posInv db) :
    posInv (executeTrade now id db p s t q pr).2 := by
  by_cases hv : (validateTrade db p s t q pr).valid = false
  · rw [executeTrade_invalid now id hv]
    exact h
  · unfold executeTrade
    rw [if_neg hv]
    dsimp only
    exact posInv_savePlayerSummary _
      (posInv_recalculatePositionSummary p s (posInv_saveLedgerEntry _ h))

theorem getPlayerLedgerEntries_savePlayerSummary (db : DB) (ps : PlayerSummary)
    (p : String) :
    (db.savePlayerSummary ps).getPlayerLedgerEntries p = db.getPlayerLedgerEntries p :=
  getPlayerLedgerEntries_congr p rfl

/-! ## Claim theorems -/

/-- C4: `recalculatePositionSummary` replays the symbol's entries in
ascending timestamp order with the running `totalShares`/`totalCost`
recurrence (BUY adds `quantity` shares and `quantity × price` cost; SELL
subtracts `avgCost × sharesSold` and `sharesSold`, with
`avgCost = totalCost/totalShares` when `totalShares > 0`, else 0); when no
entries exist or the final share count is `≤ 0` it deletes any stored
summary and returns absent, and otherwise it persists and returns the
summary with `quantity = totalShares`,
`averageCostBasis = totalCost/totalShares` and `totalCostBasis = totalCost`. -/
theorem recalculatePositionSummary_spec (db : DB) (p s : String) :
    recalculatePositionSummary db p s =
      (if (db.getLedgerEntriesForSymbol p s).length = 0 ∨
          (specReplay (db.getLedgerEntriesForSymbol p s)).1 ≤ 0 then
        (none, db.deletePositionSummary p s)
       else
        (some
          { playerId := p
            symbol := s
            quantity := (specReplay (db.getLedgerEntriesForSymbol p s)).1
            averageCostBasis := (specReplay (db.getLedgerEntriesForSymbol p s)).2 /
              (specReplay (db.getLedgerEntriesForSymbol p s)).1
            totalCostBasis := (specReplay (db.getLedgerEntriesForSymbol p s)).2
            firstPurchaseDate :=
              ((db.getLedgerEntriesForSymbol p s).foldl replayStep replayInit).firstPurchaseDate
            lastActivityDate :=
              ((db.getLedgerEntriesForSymbol p s).foldl replayStep replayInit).lastActivityDate },
         db.savePositionSummary
          { playerId := p
            symbol := s
            quantity := (specReplay (db.getLedgerEntriesForSymbol p s)).1
            averageCostBasis := (specReplay (db.getLedgerEntriesForSymbol p s)).2 /
              (specReplay (db.getLedgerEntriesForSymbol p s)).1
            totalCostBasis := (specReplay (db.getLedgerEntriesForSymbol p s)).2
            firstPurchaseDate :=
              ((db.getLedgerEntriesForSymbol p s).foldl replayStep replayInit).firstPurchaseDate
            lastActivityDate :=
              ((db.getLedgerEntriesForSymbol p s).foldl replayStep replayInit).lastActivityDate })) := by
  have h := positionSummaryOfEntries_eq p s (db.getLedgerEntriesForSymbol p s)
  by_cases hc : (db.getLedgerEntriesForSymbol p s).length = 0 ∨
      (specReplay (db.getLedgerEntriesForSymbol p s)).1 ≤ 0
  · rw [if_pos hc] at h
    simp only [recalculatePositionSummary, h]
    rw [if_pos hc]
  · rw [if_neg hc] at h
    simp only [recalculatePositionSummary, h]
    rw [if_neg hc]

set_option maxRecDepth 100000 in
/-- C7: `recalculatePlayerSummary` persists and returns `cashBalance` equal
to the sum of `cashChange` over the player's entries, `totalDeposited`
equal to the `cashChange` of CASH_DEPOSIT entries plus
`quantity × pricePerShare` of every zero-`cashChange` BUY, and
`totalRealizedPnL` equal to the sum of the non-null `realizedPnL` values;
in particular one CASH_DEPOSIT of 1000 plus one zero-`cashChange` BUY of
5 shares @ 50 gives `totalDeposited = 1250`. -/
theorem recalculatePlayerSummary_spec :
    (∀ (now : String) (db : DB) (p : String),
      recalculatePlayerSummary now db p =
        ({ playerId := p
           cashBalance := sumCashChange (db.getPlayerLedgerEntries p)
           totalDeposited := sumDeposited (db.getPlayerLedgerEntries p)
           totalRealizedPnL := sumRealized (db.getPlayerLedgerEntries p)
           lastUpdated := now },
         db.savePlayerSummary
           { playerId := p
             cashBalance := sumCashChange (db.getPlayerLedgerEntries p)
             totalDeposited := sumDeposited (db.getPlayerLedgerEntries p)
             totalRealizedPnL := sumRealized (db.getPlayerLedgerEntries p)
             lastUpdated := now }))
    ∧ (recalculatePlayerSummary "2024-12-08T00:00:00.000Z" c7Db "q").1.totalDeposited = 1250
    ∧ (recalculatePlayerSummary "2024-12-08T00:00:00.000Z" c7Db "q").1.cashBalance = 1000
    ∧ (recalculatePlayerSummary "2024-12-08T00:00:00.000Z" c7Db "q").1.totalRealizedPnL = 0 := by
  refine ⟨fun now db p => recalculatePlayerSummary_eq now db p, ?_, ?_, ?_⟩ <;>
    with_unfolding_all decide

/-- C3 counterexample: the two sequential calls of
`recalculatePlayerSummary` observe distinct wall-clock readings (here one
millisecond apart), and their outputs differ in the `lastUpdated` field,
so the outputs are not identical as the claim states. -/
theorem recalculatePlayerSummary_twice_differs :
    ((recalculatePlayerSummary "2024-01-01T00:00:00.001Z"
        ((recalculatePlayerSummary "2024-01-01T00:00:00.000Z" DB.empty "p").2) "p").1) ≠
      ((recalculatePlayerSummary "2024-01-01T00:00:00.000Z" DB.empty "p").1) := by
  with_unfolding_all decide

/-- C3 amended: with no ledger entries added, removed or changed between
the calls, `recalculatePositionSummary` called twice in a row returns
identical outputs, and `recalculatePlayerSummary` called twice returns
outputs identical in every field derived from the ledger (`playerId`,
`cashBalance`, `totalDeposited`, `totalRealizedPnL`) — only the
`lastUpdated` recomputation timestamp differs; both summary functions are
pure functions of the ledger contents, which neither call modifies. -/
theorem summaries_replay_deterministic (db : DB) (p s n1 n2 : String) :
    ((recalculatePositionSummary (recalculatePositionSummary db p s).2 p s).1 =
        (recalculatePositionSummary db p s).1)
    ∧ ((recalculatePlayerSummary n2 ((recalculatePlayerSummary n1 db p).2) p).1.playerId =
        (recalculatePlayerSummary n1 db p).1.playerId)
    ∧ ((recalculatePlayerSummary n2 ((recalculatePlayerSummary n1 db p).2) p).1.cashBalance =
        (recalculatePlayerSummary n1 db p).1.cashBalance)
    ∧ ((recalculatePlayerSummary n2 ((recalculatePlayerSummary n1 db p).2) p).1.totalDeposited =
        (recalculatePlayerSummary n1 db p).1.totalDeposited)
    ∧ ((recalculatePlayerSummary n2 ((recalculatePlayerSummary n1 db p).2) p).1.totalRealizedPnL =
        (recalculatePlayerSummary n1 db p).1.totalRealizedPnL)
    ∧ (((recalculatePositionSummary db p s).2).ledger = db.ledger)
    ∧ (((recalculatePlayerSummary n1 db p).2).ledger = db.ledger) := by
  refine ⟨?_, ?_, ?_, ?_, ?_,
    recalculatePositionSummary_ledger db p s, recalculatePlayerSummary_ledger n1 db p⟩
  · exact recalculatePositionSummary_fst_congr p s (recalculatePositionSummary_ledger db p s)
  all_goals
    simp only [recalculatePlayerSummary_eq, getPlayerLedgerEntries_savePlayerSummary]

/-- C6: a trade that fails validation returns the failure reason and
performs no writes — the returned database is exactly the input database,
so no ledger entry is created and every stored summary is unchanged. -/
theorem executeTrade_rejected_no_writes (now id : String) (db : DB) (p s : String)
    (t : TradeType) (q pr : ℚ)
    (h : (validateTrade db p s t q pr).valid = false) :
    executeTrade now id db p s t q pr =
      ({ success := false, error := (validateTrade db p s t q pr).error }, db) :=
  executeTrade_invalid now id h

/-- C6 witness: a BUY of 10 @ 100 against an absent player summary (cash
treated as 0) fails validation, and `executeTrade` returns the failure
with the database untouched. -/
theorem executeTrade_rejected_no_writes_witness :
    (validateTrade DB.empty "p" "S" .BUY 10 100).valid = false ∧
    executeTrade "2024-01-01T00:00:00.000Z" "id1" DB.empty "p" "S" .BUY 10 100 =
      ({ success := false, error := (validateTrade DB.empty "p" "S" .BUY 10 100).error },
        DB.empty) :=
  ⟨by with_unfolding_all decide,
   executeTrade_rejected_no_writes "2024-01-01T00:00:00.000Z" "id1" DB.empty "p" "S"
     .BUY 10 100 (by with_unfolding_all decide)⟩

/-- C5: `validateTrade` rejects when the quantity is not a positive
integer or the price is not positive; a BUY is rejected as insufficient
funds exactly when `quantity × price > cashBalance` (0 when the player
summary is absent); a SELL is rejected as insufficient shares exactly
when `quantity > heldQuantity` (0 when the position summary is absent);
otherwise it accepts and returns the summaries it read. -/
theorem validateTrade_spec (db : DB) (p s : String) (t : TradeType) (q pr : ℚ) :
    ((validateTrade db p s t q pr).valid = true ↔
      (0 < q ∧ q.isInt = true ∧ 0 < pr ∧
        (t = .BUY → q * pr ≤ cashBalanceOf db p) ∧
        (t = .SELL → q ≤ heldQuantityOf db p s)))
    ∧ (¬ (0 < q ∧ q.isInt = true) →
        (validateTrade db p s t q pr).error = some .quantityNotPositiveInt)
    ∧ (0 < q ∧ q.isInt = true → pr ≤ 0 →
        (validateTrade db p s t q pr).error = some .priceNotPositive)
    ∧ (0 < q ∧ q.isInt = true → 0 < pr → t = .BUY → cashBalanceOf db p < q * pr →
        (validateTrade db p s t q pr).error =
          some (.insufficientCash (cashBalanceOf db p) (q * pr)))
    ∧ (0 < q ∧ q.isInt = true → 0 < pr → t = .SELL → heldQuantityOf db p s < q →
        (validateTrade db p s t q pr).error =
          some (.insufficientShares (heldQuantityOf db p s) s))
    ∧ ((validateTrade db p s t q pr).valid = true →
        (validateTrade db p s t q pr).playerSummary = some (db.getPlayerSummary p) ∧
        (validateTrade db p s t q pr).positionSummary = some (db.getPositionSummary p s)) := by
  refine ⟨?_, ?_, ?_, ?_, ?_, fun h => validateTrade_valid_summaries h⟩
  · by_cases h1 : q ≤ 0 ∨ ¬ q.isInt
    · rw [validateTrade_case1 db p s t pr h1]
      constructor
      · intro hcontr
        exact absurd hcontr (by simp)
      · rintro ⟨hq, hint, -⟩
        exfalso
        rcases h1 with h | h
        · exact absurd hq (not_lt.mpr h)
        · exact h hint
    · by_cases h2 : pr ≤ 0
      · rw [validateTrade_case2 db p s t h1 h2]
        constructor
        · intro hcontr
          exact absurd hcontr (by simp)
        · rintro ⟨-, -, hpr, -⟩
          exact absurd hpr (not_lt.mpr h2)
      · have h1' := h1
        push_neg at h1'
        cases t with
        | BUY =>
            by_cases h3 : q * pr > cashBalanceOf db p
            · rw [validateTrade_buyLow db p s h1 h2 h3]
              constructor
              · intro hcontr
                exact absurd hcontr (by simp)
              · rintro ⟨-, -, -, hb, -⟩
                exact absurd (hb rfl) (not_le.mpr h3)
            · rw [validateTrade_buyOk db p s h1 h2 h3]
              constructor
              · intro _
                exact ⟨h1'.1, h1'.2, lt_of_not_le h2, fun _ => not_lt.mp h3,
                  fun hst => absurd hst (by simp)⟩
              · intro _
                rfl
        | SELL =>
            by_cases h3 : heldQuantityOf db p s < q
            · rw [validateTrade_sellLow db p s h1 h2 h3]
              constructor
              · intro hcontr
                exact absurd hcontr (by simp)
              · rintro ⟨-, -, -, -, hb⟩
                exact absurd (hb rfl) (not_le.mpr h3)
            · rw [validateTrade_sellOk db p s h1 h2 h3]
              constructor
              · intro _
                exact ⟨h1'.1, h1'.2, lt_of_not_le h2,
                  fun hst => absurd hst (by simp), fun _ => not_lt.mp h3⟩
              · intro _
                rfl
  · intro hn
    have h1 : q ≤ 0 ∨ ¬ q.isInt := by
      by_contra hc
      push_neg at hc
      exact hn ⟨hc.1, hc.2⟩
    rw [validateTrade_case1 db p s t pr h1]
  · rintro ⟨hq, hint⟩ hpr
    have h1 : ¬ (q ≤ 0 ∨ ¬ q.isInt) := by
      push_neg
      exact ⟨hq, hint⟩
    rw [validateTrade_case2 db p s t h1 hpr]
  · rintro ⟨hq, hint⟩ hpr ht hcash
    subst ht
    have h1 : ¬ (q ≤ 0 ∨ ¬ q.isInt) := by
      push_neg
      exact ⟨hq, hint⟩
    rw [validateTrade_buyLow db p s h1 (not_le.mpr hpr) hcash]
  · rintro ⟨hq, hint⟩ hpr ht hheld
    subst ht
    have h1 : ¬ (q ≤ 0 ∨ ¬ q.isInt) := by
      push_neg
      exact ⟨hq, hint⟩
    rw [validateTrade_sellLow db p s h1 (not_le.mpr hpr) hheld]

/-- C5 witness: a valid SELL of 5 @ 150 against `dbW` accepts and returns
the stored summaries it read. -/
theorem validateTrade_spec_witness :
    (validateTrade dbW "p" "S" .SELL 5 150).playerSummary =
        some (dbW.getPlayerSummary "p") ∧
      (validateTrade dbW "p" "S" .SELL 5 150).positionSummary =
        some (dbW.getPositionSummary "p" "S") :=
  (validateTrade_spec dbW "p" "S" .SELL 5 150).2.2.2.2.2 (by with_unfolding_all decide)

/-- C8: a SELL whose quantity exceeds the held quantity (0 when the
summary is absent) is rejected; `executeTrade` preserves positivity of
every stored position summary, so no stored summary is ever negative; and
a replay whose final share count is exactly 0 deletes the summary instead
of storing a zero position. -/
theorem no_negative_holdings (now id : String) (db : DB) (p s : String)
    (t : TradeType) (q pr : ℚ) (hinv : posInv db) :
    (heldQuantityOf db p s < q → (validateTrade db p s .SELL q pr).valid = false)
    ∧ posInv (executeTrade now id db p s t q pr).2
    ∧ (∀ ps ∈ ((executeTrade now id db p s t q pr).2).positionSummaries, ¬ ps.quantity < 0)
    ∧ (db.getLedgerEntriesForSymbol p s ≠ [] →
        (specReplay (db.getLedgerEntriesForSymbol p s)).1 = 0 →
        recalculatePositionSummary db p s = (none, db.deletePositionSummary p s)) := by
  refine ⟨?_, executeTrade_posInv now id p s t q pr hinv, ?_, ?_⟩
  · intro hlt
    by_cases h1 : q ≤ 0 ∨ ¬ q.isInt
    · rw [validateTrade_case1 db p s .SELL pr h1]
    · by_cases h2 : pr ≤ 0
      · rw [validateTrade_case2 db p s .SELL h1 h2]
      · rw [validateTrade_sellLow db p s h1 h2 hlt]
  · intro ps hps
    exact not_lt.mpr (le_of_lt (executeTrade_posInv now id p s t q pr hinv ps hps))
  · intro hne h0
    have h := positionSummaryOfEntries_eq p s (db.getLedgerEntriesForSymbol p s)
    rw [if_pos (Or.inr (le_of_eq h0))] at h
    simp only [recalculatePositionSummary, h]

/-- C8 witness: selling 5 shares with none held is rejected, and the
(unchanged) store still satisfies the positivity invariant. -/
theorem no_negative_holdings_witness :
    (validateTrade DB.empty "p" "S" .SELL 5 10).valid = false ∧
      posInv (executeTrade "2024-01-01T00:00:00.000Z" "i0" DB.empty "p" "S" .SELL 5 10).2 :=
  ⟨(no_negative_holdings "2024-01-01T00:00:00.000Z" "i0" DB.empty "p" "S" .SELL 5 10
      (fun ps hps => absurd hps (List.not_mem_nil ps))).1 (by with_unfolding_all decide),
   (no_negative_holdings "2024-01-01T00:00:00.000Z" "i0" DB.empty "p" "S" .SELL 5 10
      (fun ps hps => absurd hps (List.not_mem_nil ps))).2.1⟩

/-- C9: the entry appended for a valid trade carries the trade type,
`+quantity` / `−quantity`, `∓ quantity × price` as `cashChange`, null
`costBasisPerShare` and `realizedPnL` for BUY, and for SELL the
`averageCostBasis` of the position summary fetched during validation and
`realizedPnL = (price − averageCostBasis) × quantity`; a valid SELL always
has that summary present. -/
theorem executeTrade_entry_shape (now id : String) (db : DB) (p s : String)
    (t : TradeType) (q pr : ℚ)
    (h : (validateTrade db p s t q pr).valid = true) :
    (executeTrade now id db p s t q pr).1.ledgerEntry =
      some
        { id := id
          playerId := p
          entryType := (match t with | .BUY => EntryType.BUY | .SELL => EntryType.SELL)
          symbol := some s
          quantity := (match t with | .BUY => q | .SELL => -q)
          pricePerShare := pr
          cashChange := (match t with | .BUY => -(q * pr) | .SELL => q * pr)
          costBasisPerShare :=
            (match t with
              | .BUY => none
              | .SELL => (db.getPositionSummary p s).map (fun x => x.averageCostBasis))
          realizedPnL :=
            (match t with
              | .BUY => none
              | .SELL =>
                  (db.getPositionSummary p s).map (fun x => (pr - x.averageCostBasis) * q))
          timestamp := now
          notes := none }
    ∧ (t = .SELL → (db.getPositionSummary p s).isSome) := by
  have hnf : ¬ ((validateTrade db p s t q pr).valid = false) := by simp [h]
  have hsum := (validateTrade_valid_summaries h).2
  constructor
  · unfold executeTrade
    rw [if_neg hnf]
    dsimp only
    rw [hsum]
    cases t with
    | BUY => rfl
    | SELL =>
        cases hps : db.getPositionSummary p s with
        | none => rfl
        | some x => rfl
  · intro ht
    subst ht
    exact validateTrade_sell_isSome h

set_option maxRecDepth 100000 in
/-- C9 witness: a valid SELL of 5 @ 150 against a position of 20 shares at
average cost 110 appends an entry with quantity −5, cashChange 750,
costBasisPerShare 110 and realizedPnL 200. -/
theorem executeTrade_entry_shape_witness :
    (executeTrade "2024-01-03T00:00:00.000Z" "w9" dbW "p" "S" .SELL 5 150).1.ledgerEntry =
      some ⟨"w9", "p", .SELL, some "S", -5, 150, 750, some 110, some 200,
            "2024-01-03T00:00:00.000Z", none⟩ := by
  rw [(executeTrade_entry_shape "2024-01-03T00:00:00.000Z" "w9" dbW "p" "S" .SELL 5 150
    (by with_unfolding_all decide)).1]
  with_unfolding_all decide

/-- C10: when every BUY entry in the replayed list has positive quantity,
a replay that ends with positive shares must have processed a BUY, so the
summary returned (and persisted) by `recalculatePositionSummary` never has
a null `firstPurchaseDate` — the source's non-null assertion is justified. -/
theorem firstPurchaseDate_assigned (db : DB) (p s : String)
    (hbuy : ∀ e ∈ db.getLedgerEntriesForSymbol p s,
      e.entryType = .BUY → 0 < e.quantity) :
    ∀ ps, (recalculatePositionSummary db p s).1 = some ps →
      ps.firstPurchaseDate ≠ none := by
  intro ps hps hnone
  rw [recalculatePositionSummary_fst, positionSummaryOfEntries_eq] at hps
  by_cases hc : (db.getLedgerEntriesForSymbol p s).length = 0 ∨
      (specReplay (db.getLedgerEntriesForSymbol p s)).1 ≤ 0
  · rw [if_pos hc] at hps
    exact absurd hps (by simp)
  · rw [if_neg hc] at hps
    push_neg at hc
    have hrec := (Option.some.injEq _ _).mp hps
    rw [← hrec] at hnone
    dsimp only at hnone
    have hok : okAcc
        (List.foldl replayStep replayInit (db.getLedgerEntriesForSymbol p s)) :=
      okAcc_fold _ (fun _ => le_refl 0)
    have hsh := hok hnone
    have ht := replay_totals (db.getLedgerEntriesForSymbol p s)
    have h1 : (specReplay (db.getLedgerEntriesForSymbol p s)).1 =
        (List.foldl replayStep replayInit (db.getLedgerEntriesForSymbol p s)).totalShares := by
      rw [← ht]
    rw [h1] at hc
    exact absurd hsh (not_le.mpr hc.2)

set_option maxRecDepth 100000 in
/-- C10 witness: the summary recalculated from a single BUY of 10 @ 100
carries `firstPurchaseDate = some "2024-01-05"`, not null. -/
theorem firstPurchaseDate_assigned_witness :
    (⟨"p", "S", 10, 100, 1000, some "2024-01-05", "2024-01-05"⟩ :
        PositionSummary).firstPurchaseDate ≠ none :=
  firstPurchaseDate_assigned dbC10 "p" "S" (by with_unfolding_all decide) _
    (by with_unfolding_all decide)

set_option maxRecDepth 400000 in
/-- C1 counterexample: after BUY 10 @ 100 and BUY 10 @ 120 the blended
average cost is (1000 + 1200) / 20 = 110, not 120, so the SELL of 5 @ 150
does not realize 150 and the summary's average cost basis is not 120 —
the worked example's arithmetic (cost 2400 total, avg 120) does not match
the code's averaging. -/
theorem costBasisExample_not_150 :
    ¬ (c1Sell.1.ledgerEntry.map (fun e => e.realizedPnL) = some (some 150) ∧
       c1Sell.1.positionSummary.map
         (fun o => o.map (fun ps => (ps.averageCostBasis, ps.quantity))) =
         some (some (120, 15))) := by
  with_unfolding_all decide

set_option maxRecDepth 400000 in
/-- C1 amended: for the ledger BUY 10 @ 100 then BUY 10 @ 120, the blended
average cost basis is (10 × 100 + 10 × 120) / 20 = 110, so the subsequent
`executeTrade` SELL of 5 @ 150 (validated and executed sequentially, with
summaries recalculated after each entry) produces a ledger entry with
`realizedPnL = (150 − 110) × 5 = 200` and `costBasisPerShare = 110`, and
the resulting `PositionSummary` has `averageCostBasis = 110` (unchanged by
the sell) and `quantity = 15`. -/
theorem costBasisExample :
    c1Buy2.1.positionSummary =
      some (some ⟨"p", "STK", 20, 110, 2200, some "2024-01-02", "2024-01-03"⟩) ∧
    c1Sell.1.success = true ∧
    c1Sell.1.ledgerEntry.map (fun e => e.realizedPnL) = some (some 200) ∧
    c1Sell.1.ledgerEntry.map (fun e => e.costBasisPerShare) = some (some 110) ∧
    c1Sell.1.positionSummary =
      some (some ⟨"p", "STK", 15, 110, 1650, some "2024-01-02", "2024-01-04"⟩) := by
  with_unfolding_all decide

set_option maxRecDepth 400000 in
/-- C2: the upload route's import of `c2Rows` (a cash row of 500 and a
stock row AAPL 10 @ 100 for the same player) writes no ledger entry at
all — the resulting ledger is empty instead of holding one CASH_DEPOSIT
and one zero-`cashChange` BUY — and records the import in the mutable
per-player cash fields (`startingCash = 1500`, `currentCash = 500`) and in
`Position`/`InitialPosition` records. -/
theorem upload_no_ledger_writes :
    c2Db.ledger = [] ∧
    c2Db.playerSummaries = [] ∧
    c2Db.positionSummaries = [] ∧
    (c2Db.getPlayerByName "Alice").map (fun pl => (pl.startingCash, pl.currentCash)) =
      some (some 1500, some 500) ∧
    c2Db.positions.length = 1 ∧
    c2Db.initialPositions.length = 1 := by
  with_unfolding_all decide

end StockGame
